import Mathlib

/-!
Verification of the github-follow-sync utility (src/main.py, src/helpers.py).

The Python source is shallowly embedded: each Python function becomes a Lean
definition over explicit inputs (the HTTP layer becomes a function from URL or
username to a response value, the environment becomes an `Option String`, and
`sys.exit(1)` becomes an explicit error/exit value).  All definitions are
executable so concrete runs can be checked by `decide`/`rfl`.
-/

set_option autoImplicit false

namespace FollowSync

/-- A JSON object item from a GitHub collection page, modelled as an
association list from field name to string value (`main.py` only ever reads
the `"login"` field). -/
abbrev Item := List (String × String)

/-- An HTTP response as seen by `iter_paginated`: the status code, the parsed
JSON body (`resp.json() or []` — a null body is the empty list), and the raw
`Link` header (`resp.headers.get("Link", "")` — absent header is `""`). -/
structure Response where
  status_code : Nat
  body : List Item
  link : String
deriving Repr, DecidableEq

/-- The set reconciliation inlined in `main` (main.py lines 185-186):
`not_following_me_back = [u for u in following if u not in followers]` and
`not_followed_by_me = [u for u in followers if u not in following]`. -/
def reconcile (following followers : List String) : List String × List String :=
  (following.filter (fun u => !(followers.contains u)),
   followers.filter (fun u => !(following.contains u)))

theorem mem_reconcile_left (following followers : List String) (u : String) :
    u ∈ (reconcile following followers).1 ↔ u ∈ following ∧ u ∉ followers := by
  simp [reconcile, List.mem_filter, List.contains, List.elem_eq_mem]

theorem mem_reconcile_right (following followers : List String) (u : String) :
    u ∈ (reconcile following followers).2 ↔ u ∈ followers ∧ u ∉ following := by
  simp [reconcile, List.mem_filter, List.contains, List.elem_eq_mem]

/-- C1: reconciliation returns, order-preservingly, the subsequence of
Following absent from Followers and the subsequence of Followers absent from
Following; on Following = [a,b,c], Followers = [b,c,d] it yields ([a],[d]). -/
theorem reconcile_set_difference (following followers : List String) :
    (reconcile following followers).1 =
      following.filter (fun u => decide (u ∉ followers)) ∧
    (reconcile following followers).2 =
      followers.filter (fun u => decide (u ∉ following)) ∧
    (reconcile following followers).1.Sublist following ∧
    (reconcile following followers).2.Sublist followers ∧
    (∀ u, u ∈ (reconcile following followers).1 ↔ u ∈ following ∧ u ∉ followers) ∧
    (∀ u, u ∈ (reconcile following followers).2 ↔ u ∈ followers ∧ u ∉ following) ∧
    reconcile ["a", "b", "c"] ["b", "c", "d"] = (["a"], ["d"]) := by
  refine ⟨?_, ?_, List.filter_sublist _, List.filter_sublist _,
    mem_reconcile_left following followers, mem_reconcile_right following followers,
    by decide⟩
  · simp [reconcile, List.contains, List.elem_eq_mem]
  · simp [reconcile, List.contains, List.elem_eq_mem]

/-- C9: reconciliation is deterministic and idempotent — two computations of
the candidate lists from the same (Following, Followers) pair coincide. -/
theorem reconcile_deterministic (following followers : List String)
    (r₁ r₂ : List String × List String)
    (h₁ : r₁ = reconcile following followers)
    (h₂ : r₂ = reconcile following followers) :
    r₁ = r₂ :=
  h₁.trans h₂.symm

/-- Witness for `reconcile_deterministic` at a concrete input. -/
theorem reconcile_deterministic_witness :
    reconcile ["a", "b", "c"] ["b", "c", "d"] =
      reconcile ["a", "b", "c"] ["b", "c", "d"] :=
  reconcile_deterministic ["a", "b", "c"] ["b", "c", "d"] _ _ rfl rfl

/-- `require_token` (main.py lines 27-33): reads `TOKEN` from the environment;
`if not token` (absent or empty string) prints a diagnostic and exits 1. -/
def require_token (env : Option String) : Except Nat String :=
  match env with
  | none => Except.error 1
  | some token => if token = "" then Except.error 1 else Except.ok token

/-- `API_VERSION` constant (main.py line 21). -/
def API_VERSION : String := "2022-11-28"

/-- `auth_headers` (main.py lines 36-41). -/
def auth_headers (token : String) : List (String × String) :=
  [("Authorization", "Bearer " ++ token),
   ("X-GitHub-Api-Version", API_VERSION),
   ("Accept", "application/vnd.github+json")]

/-- `send_get_request` (helpers.py lines 4-10): exits 1 when the headers dict
is empty or holds no truthy `Authorization` value, else issues the GET.  The
transport is `net : String → Response` (URL to response). -/
def send_get_request (net : String → Response) (url : String)
    (headers : List (String × String)) : Except Nat Response :=
  if headers = [] ∨ ((headers.lookup "Authorization").getD "") = "" then
    Except.error 1
  else
    Except.ok (net url)

/-- `send_delete_request` (helpers.py lines 12-18), same guard as GET. -/
def send_delete_request (net : String → Response) (url : String)
    (headers : List (String × String)) : Except Nat Response :=
  if headers = [] ∨ ((headers.lookup "Authorization").getD "") = "" then
    Except.error 1
  else
    Except.ok (net url)

/-- `send_put_request` (helpers.py lines 21-27), same guard as GET. -/
def send_put_request (net : String → Response) (url : String)
    (headers : List (String × String)) : Except Nat Response :=
  if headers = [] ∨ ((headers.lookup "Authorization").getD "") = "" then
    Except.error 1
  else
    Except.ok (net url)

/-- Outcome of the startup sequence of `main` (main.py lines 140-153): the
URLs actually requested, and the exit code if the process terminated. -/
structure StartupResult where
  requests : List String
  exitCode : Option Nat
deriving Repr, DecidableEq

/-- The startup sequence of `main` (main.py lines 140-153): require the token,
then ping `GET /user`; 200 continues, 401 exits 1, anything else warns and
continues.  `net` maps each GET URL to its response. -/
def main_startup (env : Option String) (net : String → Response) : StartupResult :=
  match require_token env with
  | Except.error c => ⟨[], some c⟩
  | Except.ok token =>
    match send_get_request net "https://api.github.com/user" (auth_headers token) with
    | Except.error c => ⟨[], some c⟩
    | Except.ok ping =>
      if ping.status_code = 200 then ⟨["https://api.github.com/user"], none⟩
      else if ping.status_code = 401 then ⟨["https://api.github.com/user"], some 1⟩
      else ⟨["https://api.github.com/user"], none⟩

/-- C10: an absent or empty `TOKEN` makes `require_token` exit 1 and makes
startup exit 1 with zero requests issued; each request helper exits 1 when
the `Authorization` header is absent or empty. -/
theorem missing_token_exits (env : Option String) (net : String → Response)
    (url : String) (headers : List (String × String))
    (henv : env = none ∨ env = some "")
    (hauth : headers.lookup "Authorization" = none ∨
             headers.lookup "Authorization" = some "") :
    require_token env = Except.error 1 ∧
    main_startup env net = ⟨[], some 1⟩ ∧
    send_get_request net url headers = Except.error 1 ∧
    send_delete_request net url headers = Except.error 1 ∧
    send_put_request net url headers = Except.error 1 := by
  have htok : require_token env = Except.error 1 := by
    rcases henv with h | h <;> simp [require_token, h]
  have hcond : ((headers.lookup "Authorization").getD "") = "" := by
    rcases hauth with h | h <;> simp [h]
  refine ⟨htok, ?_, ?_, ?_, ?_⟩
  · simp [main_startup, htok]
  · simp [send_get_request, hcond]
  · simp [send_delete_request, hcond]
  · simp [send_put_request, hcond]

/-- Witness for `missing_token_exits`: absent token, empty header dict. -/
theorem missing_token_exits_witness :
    require_token none = Except.error 1 ∧
    main_startup none (fun _ => ⟨200, [], ""⟩) = ⟨[], some 1⟩ ∧
    send_get_request (fun _ => ⟨200, [], ""⟩) "https://api.github.com/user" [] =
      Except.error 1 ∧
    send_delete_request (fun _ => ⟨200, [], ""⟩) "https://api.github.com/user" [] =
      Except.error 1 ∧
    send_put_request (fun _ => ⟨200, [], ""⟩) "https://api.github.com/user" [] =
      Except.error 1 :=
  missing_token_exits none (fun _ => ⟨200, [], ""⟩) "https://api.github.com/user" []
    (Or.inl rfl) (Or.inl rfl)

/-- The per-user mutation endpoint `https://api.github.com/user/following/{user}`
(main.py lines 110 and 129). -/
def following_url (user : String) : String :=
  "https://api.github.com/user/following/" ++ user

/-- `batch_unfollow` (main.py lines 102-118): DELETE each user's endpoint in
sequence; a 204 counts as success (and the user is appended to the success
list), anything else as failure; the loop never aborts.  Returns
(successes, failures, success_users); `Except.error` is the unreachable exit
of the request helper.  `net` maps each DELETE URL to its response. -/
def batch_unfollow (net : String → Response) (token : String) :
    List String → Except Nat (Nat × Nat × List String)
  | [] => Except.ok (0, 0, [])
  | user :: rest =>
    match send_delete_request net (following_url user) (auth_headers token) with
    | Except.error c => Except.error c
    | Except.ok resp =>
      match batch_unfollow net token rest with
      | Except.error c => Except.error c
      | Except.ok (s, f, l) =>
        if resp.status_code = 204 then Except.ok (s + 1, f, user :: l)
        else Except.ok (s, f + 1, l)

/-- `batch_follow` (main.py lines 121-137): PUT each user's endpoint in
sequence; a status in (204, 200) counts as success, anything else as failure;
the loop never aborts.  `net` maps each PUT URL to its response. -/
def batch_follow (net : String → Response) (token : String) :
    List String → Except Nat (Nat × Nat × List String)
  | [] => Except.ok (0, 0, [])
  | user :: rest =>
    match send_put_request net (following_url user) (auth_headers token) with
    | Except.error c => Except.error c
    | Except.ok resp =>
      match batch_follow net token rest with
      | Except.error c => Except.error c
      | Except.ok (s, f, l) =>
        if resp.status_code = 204 ∨ resp.status_code = 200 then
          Except.ok (s + 1, f, user :: l)
        else Except.ok (s, f + 1, l)

theorem auth_headers_lookup (token : String) :
    (auth_headers token).lookup "Authorization" = some ("Bearer " ++ token) := by
  simp [auth_headers]

theorem bearer_ne_empty (token : String) : "Bearer " ++ token ≠ "" := by
  intro h
  have hd := congrArg String.data h
  simp [String.data_append] at hd

theorem length_filter_split (p : String → Bool) (users : List String) :
    (users.filter p).length + (users.filter fun u => !(p u)).length = users.length := by
  induction users with
  | nil => rfl
  | cons u rest ih =>
    by_cases h : p u <;> simp [List.filter_cons, h] <;> omega

theorem send_delete_auth (net : String → Response) (url : String) (token : String) :
    send_delete_request net url (auth_headers token) = Except.ok (net url) := by
  simp [send_delete_request, auth_headers_lookup, auth_headers, bearer_ne_empty token]

theorem send_put_auth (net : String → Response) (url : String) (token : String) :
    send_put_request net url (auth_headers token) = Except.ok (net url) := by
  simp [send_put_request, auth_headers_lookup, auth_headers, bearer_ne_empty token]

theorem send_get_auth (net : String → Response) (url : String) (token : String) :
    send_get_request net url (auth_headers token) = Except.ok (net url) := by
  simp [send_get_request, auth_headers_lookup, auth_headers, bearer_ne_empty token]

theorem batch_unfollow_filter (net : String → Response) (token : String)
    (users : List String) :
    batch_unfollow net token users =
      Except.ok
        ((users.filter fun u => decide ((net (following_url u)).status_code = 204)).length,
         (users.filter fun u => !(decide ((net (following_url u)).status_code = 204))).length,
         users.filter fun u => decide ((net (following_url u)).status_code = 204)) := by
  induction users with
  | nil => rfl
  | cons user rest ih =>
    by_cases h : (net (following_url user)).status_code = 204 <;>
      simp [batch_unfollow, send_delete_auth, ih, List.filter_cons, h]

theorem batch_follow_filter (net : String → Response) (token : String)
    (users : List String) :
    batch_follow net token users =
      Except.ok
        ((users.filter fun u =>
            decide ((net (following_url u)).status_code = 204 ∨
                    (net (following_url u)).status_code = 200)).length,
         (users.filter fun u =>
            !(decide ((net (following_url u)).status_code = 204 ∨
                      (net (following_url u)).status_code = 200))).length,
         users.filter fun u =>
           decide ((net (following_url u)).status_code = 204 ∨
                   (net (following_url u)).status_code = 200)) := by
  induction users with
  | nil => rfl
  | cons user rest ih =>
    by_cases h4 : (net (following_url user)).status_code = 204
    · simp [batch_follow, send_put_auth, ih, List.filter_cons, h4]
    · by_cases h2 : (net (following_url user)).status_code = 200 <;>
        simp [batch_follow, send_put_auth, ih, List.filter_cons, h4, h2]

/-- A concrete server for the C3 example: the DELETE/PUT for user "b" fails
with 404, every other user's call returns the given success status. -/
def exampleNet (okStatus : Nat) : String → Response :=
  fun url => if url = following_url "b" then ⟨404, [], ""⟩ else ⟨okStatus, [], ""⟩

/-- C3: each batch mutator processes every identifier in sequence, counts a
success exactly on status 204 (DELETE) resp. 200/204 (PUT), counts any other
status as a failure and continues, never aborts, and returns exactly the
order-preserving subsequence of the input that succeeded; on 3 identifiers
with the 2nd failing it reports 2 successes, 1 failure and the 2 succeeded
identifiers. -/
theorem batch_mutator_spec (net : String → Response) (token : String)
    (users : List String) :
    (∀ s f l, batch_unfollow net token users = Except.ok (s, f, l) →
        l = (users.filter fun u => decide ((net (following_url u)).status_code = 204)) ∧
        s = l.length ∧ f = users.length - s ∧ s + f = users.length ∧
        l.Sublist users) ∧
    (∃ s f l, batch_unfollow net token users = Except.ok (s, f, l)) ∧
    (∀ s f l, batch_follow net token users = Except.ok (s, f, l) →
        l = (users.filter fun u =>
               decide ((net (following_url u)).status_code = 204 ∨
                       (net (following_url u)).status_code = 200)) ∧
        s = l.length ∧ f = users.length - s ∧ s + f = users.length ∧
        l.Sublist users) ∧
    (∃ s f l, batch_follow net token users = Except.ok (s, f, l)) ∧
    batch_unfollow (exampleNet 204) "t" ["a", "b", "c"] =
      Except.ok (2, 1, ["a", "c"]) ∧
    batch_follow (exampleNet 200) "t" ["a", "b", "c"] =
      Except.ok (2, 1, ["a", "c"]) := by
  have hdel := batch_unfollow_filter net token users
  have hput := batch_follow_filter net token users
  refine ⟨?_, ⟨_, _, _, hdel⟩, ?_, ⟨_, _, _, hput⟩, by rfl, by rfl⟩
  · intro s f l h
    rw [hdel] at h
    injection h with h
    rw [Prod.mk.injEq, Prod.mk.injEq] at h
    obtain ⟨hs, hf, hl⟩ := h
    subst hs hf hl
    have hsum := length_filter_split
      (fun u => decide ((net (following_url u)).status_code = 204)) users
    exact ⟨rfl, rfl, by omega, by omega, List.filter_sublist _⟩
  · intro s f l h
    rw [hput] at h
    injection h with h
    rw [Prod.mk.injEq, Prod.mk.injEq] at h
    obtain ⟨hs, hf, hl⟩ := h
    subst hs hf hl
    have hsum := length_filter_split
      (fun u => decide ((net (following_url u)).status_code = 204 ∨
                        (net (following_url u)).status_code = 200)) users
    exact ⟨rfl, rfl, by omega, by omega, List.filter_sublist _⟩

/-- Python `s.split(sep)` for a one-character separator, over the character
list of the string (`"".split(sep)` is `[""]`). -/
def splitChar (sep : Char) : List Char → List (List Char)
  | [] => [[]]
  | c :: rest =>
    let r := splitChar sep rest
    if c = sep then [] :: r
    else
      match r with
      | [] => [[c]]
      | piece :: pieces => (c :: piece) :: pieces

/-- Python substring containment `pat in s` over character lists. -/
def hasSubSeq (pat : List Char) : List Char → Bool
  | [] => pat.isEmpty
  | c :: rest => pat.isPrefixOf (c :: rest) || hasSubSeq pat rest

/-- Python `str.strip()` whitespace characters. -/
def isPySpace (c : Char) : Bool :=
  c = ' ' || c = '\t' || c = '\n' || c = '\r' || c = Char.ofNat 11 || c = Char.ofNat 12

/-- Python `str.strip(chars)`: drop characters satisfying `p` from both ends. -/
def stripWith (p : Char → Bool) (l : List Char) : List Char :=
  ((l.dropWhile p).reverse.dropWhile p).reverse

/-- The character set of Python `.strip("<>")`. -/
def isAngle (c : Char) : Bool := c = '<' || c = '>'

/-- The Link-header scan of `iter_paginated` (main.py lines 63-68): split the
header on commas, take the first part containing `rel="next"`, and return
that part up to the first semicolon, whitespace-stripped then `<>`-stripped.
Returns `""` when no such part exists (Python leaves `next_url = None`);
both `None` and `""` are falsy, ending the `while next_url` loop. -/
def parse_next (link : String) : String :=
  match (splitChar ',' link.data).find? (fun part => hasSubSeq "rel=\"next\"".data part) with
  | some part =>
    String.mk (stripWith isAngle (stripWith isPySpace ((splitChar ';' part).headD [])))
  | none => ""

/-- Result of running `iter_paginated` to completion: the yielded items and
the number of GET requests issued, or the process exit (`sys.exit`), or fuel
exhaustion (the real loop is unbounded; every theorem supplies enough fuel). -/
inductive Outcome where
  | done (items : List Item) (requests : Nat)
  | exited (code : Nat) (requests : Nat)
  | outOfFuel
deriving Repr, DecidableEq

/-- `iter_paginated` (main.py lines 44-69): while the next URL is truthy, GET
it via `send_get_request`; 401 exits 1, any other status ≥ 400 exits 1;
otherwise yield the page body and continue with the Link header's rel="next"
target.  `acc` are the items yielded so far, `reqs` the requests issued. -/
def iter_paginated (net : String → Response) (headers : List (String × String)) :
    Nat → String → List Item → Nat → Outcome
  | _, "", acc, reqs => Outcome.done acc reqs
  | 0, _, _, _ => Outcome.outOfFuel
  | fuel + 1, next_url, acc, reqs =>
    match send_get_request net next_url headers with
    | Except.error c => Outcome.exited c reqs
    | Except.ok resp =>
      if resp.status_code = 401 then Outcome.exited 1 (reqs + 1)
      else if 400 ≤ resp.status_code then Outcome.exited 1 (reqs + 1)
      else
        iter_paginated net headers fuel (parse_next resp.link) (acc ++ resp.body) (reqs + 1)

/-- A well-formed successful page chain: each URL in the list is truthy, its
response has a success status, and its Link header's rel="next" target is the
following URL in the list — the last URL's Link header having none. -/
def PageChain (net : String → Response) : List String → Prop
  | [] => True
  | u :: rest =>
    u ≠ "" ∧ (net u).status_code < 400 ∧
    parse_next (net u).link = rest.headD "" ∧
    PageChain net rest

theorem iter_paginated_chain (net : String → Response) (token : String)
    (urls : List String) :
    ∀ (fuel : Nat) (acc : List Item) (reqs : Nat),
      PageChain net urls → urls.length ≤ fuel →
      iter_paginated net (auth_headers token) fuel (urls.headD "") acc reqs =
        Outcome.done (acc ++ (urls.map fun u => (net u).body).flatten) (reqs + urls.length) := by
  induction urls with
  | nil =>
    intro fuel acc reqs _ _
    cases fuel <;> simp [iter_paginated]
  | cons u rest ih =>
    intro fuel acc reqs hchain hfuel
    obtain ⟨hne, hstatus, hlink, hrest⟩ := hchain
    obtain ⟨f, rfl⟩ : ∃ f, fuel = f + 1 := ⟨fuel - 1, by simp at hfuel; omega⟩
    have h401 : ¬ (net u).status_code = 401 := by omega
    have h400 : ¬ 400 ≤ (net u).status_code := by omega
    have hstep := ih f (acc ++ (net u).body) (reqs + 1) hrest (by simp at hfuel ⊢; omega)
    rw [show (u :: rest).headD "" = u from rfl]
    rw [iter_paginated]
    · rw [send_get_auth]
      simp only [h401, h400, if_false]
      rw [hlink, hstep]
      congr 1
      · simp [List.append_assoc]
      · simp
        omega
    · exact hne

/-- C2: over any successful chain of P pages (each page's Link header naming
the next URL via rel="next" except the last), the paginated fetcher issues
exactly P GET requests in chain order and returns the concatenation of the
page bodies; an empty chain or empty pages are valid. -/
theorem paginated_fetch_spec (net : String → Response) (token : String)
    (urls : List String) (fuel : Nat)
    (hchain : PageChain net urls) (hfuel : urls.length ≤ fuel) :
    iter_paginated net (auth_headers token) fuel (urls.headD "") [] 0 =
      Outcome.done ((urls.map fun u => (net u).body).flatten) urls.length := by
  simpa using iter_paginated_chain net token urls fuel [] 0 hchain hfuel

/-- Page URLs of the two-page example server. -/
def page1Url : String := "https://api.github.com/user/following?per_page=100&page=1"

/-- Second page URL of the two-page example server. -/
def page2Url : String := "https://api.github.com/user/following?per_page=100&page=2"

/-- A concrete two-page server with a realistic Link header on page 1. -/
def twoPageNet : String → Response := fun url =>
  if url = page1Url then
    ⟨200, [[("login", "alice")], [("login", "bob")]],
     "<" ++ page2Url ++ ">; rel=\"next\", <" ++ page2Url ++ ">; rel=\"last\""⟩
  else if url = page2Url then ⟨200, [[("login", "carol")]], ""⟩
  else ⟨404, [], ""⟩

/-- Witness for `paginated_fetch_spec`: 3 items over 2 pages, 2 requests. -/
theorem paginated_fetch_spec_witness :
    iter_paginated twoPageNet (auth_headers "t") 2 ([page1Url, page2Url].headD "") [] 0 =
      Outcome.done (([page1Url, page2Url].map fun u => (twoPageNet u).body).flatten) 2 :=
  paginated_fetch_spec twoPageNet "t" [page1Url, page2Url] 2
    ⟨by decide, by decide, by decide, by decide, by decide, by decide, trivial⟩
    (by decide)

/-- A successful page chain leading to a final (to-be-requested) URL `bad`. -/
def ChainTo (net : String → Response) : List String → String → Prop
  | [], _ => True
  | u :: rest, bad =>
    u ≠ "" ∧ (net u).status_code < 400 ∧
    parse_next (net u).link = rest.headD bad ∧
    ChainTo net rest bad

theorem iter_paginated_error_chain (net : String → Response) (token : String)
    (pre : List String) :
    ∀ (bad : String) (fuel : Nat) (acc : List Item) (reqs : Nat),
      ChainTo net pre bad → bad ≠ "" → 400 ≤ (net bad).status_code →
      pre.length + 1 ≤ fuel →
      iter_paginated net (auth_headers token) fuel ((pre ++ [bad]).headD "") acc reqs =
        Outcome.exited 1 (reqs + (pre.length + 1)) := by
  induction pre with
  | nil =>
    intro bad fuel acc reqs _ hbad hstatus hfuel
    obtain ⟨f, rfl⟩ : ∃ f, fuel = f + 1 := ⟨fuel - 1, by omega⟩
    rw [show (([] : List String) ++ [bad]).headD "" = bad from rfl]
    rw [iter_paginated]
    · rw [send_get_auth]
      by_cases h401 : (net bad).status_code = 401 <;> simp [h401, hstatus]
    · exact hbad
  | cons u rest ih =>
    intro bad fuel acc reqs hchain hbad hstatus hfuel
    obtain ⟨hne, hlt, hlink, hrest⟩ := hchain
    obtain ⟨f, rfl⟩ : ∃ f, fuel = f + 1 := ⟨fuel - 1, by simp at hfuel; omega⟩
    have h401 : ¬ (net u).status_code = 401 := by omega
    have h400 : ¬ 400 ≤ (net u).status_code := by omega
    have hhead : (rest ++ [bad]).headD "" = rest.headD bad := by cases rest <;> rfl
    have hstep := ih bad f (acc ++ (net u).body) (reqs + 1) hrest hbad hstatus
      (by simp at hfuel ⊢; omega)
    rw [hhead] at hstep
    rw [show ((u :: rest) ++ [bad]).headD "" = u from rfl]
    rw [iter_paginated]
    · rw [send_get_auth]
      simp only [h401, h400, if_false]
      rw [hlink, hstep]
      congr 1
      simp only [List.length_cons]
      omega
    · exact hne

/-- C4: after any chain of successful pages, a 401 response (or any other
status ≥ 400) terminates the fetch with exit status 1, having issued exactly
one request per page seen (none retried, none after the failing one), and no
item list is ever produced from the endpoint. -/
theorem fetch_error_aborts (net : String → Response) (token : String)
    (pre : List String) (bad : String) (fuel : Nat)
    (hchain : ChainTo net pre bad) (hbad : bad ≠ "")
    (hstatus : (net bad).status_code = 401 ∨ 400 ≤ (net bad).status_code)
    (hfuel : pre.length + 1 ≤ fuel) :
    iter_paginated net (auth_headers token) fuel ((pre ++ [bad]).headD "") [] 0 =
      Outcome.exited 1 (pre.length + 1) ∧
    ∀ items r,
      iter_paginated net (auth_headers token) fuel ((pre ++ [bad]).headD "") [] 0 ≠
        Outcome.done items r := by
  have hs : 400 ≤ (net bad).status_code := by
    rcases hstatus with h | h <;> omega
  have h := iter_paginated_error_chain net token pre bad fuel [] 0 hchain hbad hs hfuel
  rw [Nat.zero_add] at h
  exact ⟨h, fun items r hdone => by rw [h] at hdone; exact Outcome.noConfusion hdone⟩

/-- A concrete server whose first page is good and whose second returns 401. -/
def errNet : String → Response := fun url =>
  if url = page1Url then ⟨200, [[("login", "alice")]], "<" ++ page2Url ++ ">; rel=\"next\""⟩
  else ⟨401, [], ""⟩

/-- Witness for `fetch_error_aborts`: one good page, then a 401. -/
theorem fetch_error_aborts_witness :
    iter_paginated errNet (auth_headers "t") 2 (([page1Url] ++ [page2Url]).headD "") [] 0 =
      Outcome.exited 1 (List.length [page1Url] + 1) ∧
    ∀ items r,
      iter_paginated errNet (auth_headers "t") 2 (([page1Url] ++ [page2Url]).headD "") [] 0 ≠
        Outcome.done items r :=
  fetch_error_aborts errNet "t" [page1Url] page2Url 2
    ⟨by decide, by decide, by decide, trivial⟩ (by decide) (Or.inl (by decide)) (by decide)

/-- `PER_PAGE` constant (main.py line 22). -/
def PER_PAGE : Nat := 100

/-- The username extraction of `fetch_usernames` (main.py lines 78-80): for
each yielded item, append `item["login"]` exactly when the item has a
`"login"` key. -/
def extract_logins : List Item → List String
  | [] => []
  | item :: rest =>
    match item.lookup "login" with
    | some login => login :: extract_logins rest
    | none => extract_logins rest

/-- Result of `fetch_usernames`: the username list and request count, or the
process exit propagated from `iter_paginated`. -/
inductive FetchResult where
  | names (usernames : List String) (requests : Nat)
  | exited (code : Nat) (requests : Nat)
  | outOfFuel
deriving Repr, DecidableEq

/-- `fetch_usernames` (main.py lines 72-82): build the page-1 URL from the
endpoint and `PER_PAGE`, run `iter_paginated` with the auth headers, and
collect the `"login"` field of each item that has one. -/
def fetch_usernames (net : String → Response) (fuel : Nat) (endpoint : String)
    (token : String) : FetchResult :=
  match iter_paginated net (auth_headers token) fuel
      (endpoint ++ "?per_page=" ++ toString PER_PAGE ++ "&page=1") [] 0 with
  | Outcome.done items reqs => FetchResult.names (extract_logins items) reqs
  | Outcome.exited c reqs => FetchResult.exited c reqs
  | Outcome.outOfFuel => FetchResult.outOfFuel

theorem extract_logins_filterMap (items : List Item) :
    extract_logins items = items.filterMap fun item => item.lookup "login" := by
  induction items with
  | nil => rfl
  | cons item rest ih =>
    cases h : item.lookup "login" <;> simp [extract_logins, h, ih]

/-- C8: whenever pagination yields an item list, `fetch_usernames` returns
exactly the `"login"` values of the items that have a `"login"` key, in fetch
order; items without the key are dropped, so the result can be strictly
shorter than the fetched item list. -/
theorem fetch_usernames_logins (net : String → Response) (fuel : Nat)
    (endpoint : String) (token : String) (items : List Item) (reqs : Nat)
    (h : iter_paginated net (auth_headers token) fuel
        (endpoint ++ "?per_page=" ++ toString PER_PAGE ++ "&page=1") [] 0 =
      Outcome.done items reqs) :
    fetch_usernames net fuel endpoint token =
      FetchResult.names (items.filterMap fun item => item.lookup "login") reqs ∧
    (items.filterMap fun item => item.lookup "login").length ≤ items.length ∧
    extract_logins [[("id", "17")], [("login", "alice")]] = ["alice"] := by
  refine ⟨?_, List.length_filterMap_le _ _, by decide⟩
  simp only [fetch_usernames, h, extract_logins_filterMap]

/-- A one-page server for the C8 witness: three items, one lacking `login`. -/
def mixedNet : String → Response := fun url =>
  if url = "https://api.github.com/user/followers?per_page=100&page=1" then
    ⟨200, [[("login", "alice")], [("id", "17")], [("login", "bob")]], ""⟩
  else ⟨404, [], ""⟩

/-- Witness for `fetch_usernames_logins`: 3 fetched items, 2 usernames. -/
theorem fetch_usernames_logins_witness :
    fetch_usernames mixedNet 1 "https://api.github.com/user/followers" "t" =
      FetchResult.names
        (([[("login", "alice")], [("id", "17")], [("login", "bob")]] : List Item).filterMap
          fun item => item.lookup "login") 1 ∧
    (([[("login", "alice")], [("id", "17")], [("login", "bob")]] : List Item).filterMap
        fun item => item.lookup "login").length ≤
      ([[("login", "alice")], [("id", "17")], [("login", "bob")]] : List Item).length ∧
    extract_logins [[("id", "17")], [("login", "alice")]] = ["alice"] :=
  fetch_usernames_logins mixedNet 1 "https://api.github.com/user/followers" "t"
    [[("login", "alice")], [("id", "17")], [("login", "bob")]] 1 (by decide)

/-- The in-memory state of the menu loop of `main` (main.py lines 183-225):
the fetched following and followers lists and the two derived candidate
lists. -/
structure AppState where
  following : List String
  followers : List String
  not_following_me_back : List String
  not_followed_by_me : List String
deriving Repr, DecidableEq

/-- The state entering the menu loop (main.py lines 183-186). -/
def initial_state (following followers : List String) : AppState :=
  ⟨following, followers,
   (reconcile following followers).1, (reconcile following followers).2⟩

/-- The post-unfollow update (main.py lines 211-214): when the success list
is non-empty (`if success:`), drop the succeeded users from
`not_following_me_back` and from `following`. -/
def apply_unfollow_update (st : AppState) (success : List String) : AppState :=
  if success = [] then st
  else
    ⟨st.following.filter (fun u => !(success.contains u)),
     st.followers,
     st.not_following_me_back.filter (fun u => !(success.contains u)),
     st.not_followed_by_me⟩

/-- The `for u in success: if u not in following: following.append(u)` loop
(main.py lines 221-223). -/
def append_missing (following : List String) : List String → List String
  | [] => following
  | u :: rest =>
    if following.contains u then append_missing following rest
    else append_missing (following ++ [u]) rest

/-- The post-follow update (main.py lines 218-223): when the success list is
non-empty, drop the succeeded users from `not_followed_by_me` and append each
succeeded user not already followed to `following`. -/
def apply_follow_update (st : AppState) (success : List String) : AppState :=
  if success = [] then st
  else
    ⟨append_missing st.following success,
     st.followers,
     st.not_following_me_back,
     st.not_followed_by_me.filter (fun u => !(success.contains u))⟩

/-- First-occurrence deduplication, used to state what `append_missing`
appends when the success list repeats a name. -/
def dedup_first : List String → List String
  | [] => []
  | u :: rest => u :: dedup_first (rest.filter fun v => !(v == u))
termination_by l => l.length
decreasing_by
  simp only [List.length_cons]
  exact Nat.lt_succ_of_le (List.length_filter_le _ rest)

theorem append_missing_eq (success : List String) :
    ∀ following : List String,
      append_missing following success =
        following ++ dedup_first (success.filter fun u => !(following.contains u)) := by
  induction success with
  | nil => intro following; simp [append_missing, dedup_first]
  | cons u rest ih =>
    intro following
    by_cases h : u ∈ following
    · have hc : following.contains u = true := by
        simp [List.contains, List.elem_eq_mem, h]
      rw [append_missing, if_pos hc, ih following, List.filter_cons]
      simp [hc, h]
    · have hc : following.contains u = false := by
        simp [List.contains, List.elem_eq_mem, h]
      rw [append_missing, if_neg (by simp [List.contains, List.elem_eq_mem, h]),
        ih (following ++ [u]), List.filter_cons]
      simp only [hc, Bool.not_false, if_pos]
      rw [dedup_first, List.append_assoc, List.singleton_append]
      congr 2
      rw [List.filter_filter]
      congr 1
      refine List.filter_congr ?_
      intro v _
      by_cases hvu : v = u <;> by_cases hvf : v ∈ following <;>
        simp [hvu, hvf, List.contains, List.elem_eq_mem]

theorem mem_append_missing (u : String) (success : List String) :
    ∀ following : List String,
      u ∈ append_missing following success ↔ u ∈ following ∨ u ∈ success := by
  induction success with
  | nil => intro following; simp [append_missing]
  | cons v rest ih =>
    intro following
    by_cases h : following.contains v
    · rw [append_missing, if_pos h, ih following]
      have hv : v ∈ following := by simpa [List.contains, List.elem_eq_mem] using h
      constructor
      · rintro (hm | hm)
        · exact Or.inl hm
        · exact Or.inr (List.mem_cons_of_mem v hm)
      · rintro (hm | hm)
        · exact Or.inl hm
        · rcases List.mem_cons.mp hm with rfl | hm
          · exact Or.inl hv
          · exact Or.inr hm
    · rw [append_missing, if_neg h, ih (following ++ [v])]
      simp [List.mem_append, or_assoc, List.mem_cons]

/-- C5: after an apply step returning success list S — for unfollow, exactly
the members of S are removed from `not_following_me_back` and `following`
(order preserved) and `not_followed_by_me` is untouched; for follow, exactly
the members of S are removed from `not_followed_by_me` and the members of S
not yet followed are appended (first occurrence each) to `following`, with
`not_following_me_back` untouched; an empty S leaves the state unchanged. -/
theorem apply_update_spec (st : AppState) (S : List String) :
    (apply_unfollow_update st S).not_following_me_back =
      st.not_following_me_back.filter (fun u => !(S.contains u)) ∧
    (apply_unfollow_update st S).following =
      st.following.filter (fun u => !(S.contains u)) ∧
    (apply_unfollow_update st S).not_followed_by_me = st.not_followed_by_me ∧
    (apply_unfollow_update st S).followers = st.followers ∧
    (apply_follow_update st S).not_followed_by_me =
      st.not_followed_by_me.filter (fun u => !(S.contains u)) ∧
    (apply_follow_update st S).following =
      st.following ++ dedup_first (S.filter fun u => !(st.following.contains u)) ∧
    (apply_follow_update st S).not_following_me_back = st.not_following_me_back ∧
    (apply_follow_update st S).followers = st.followers ∧
    apply_unfollow_update st [] = st ∧
    apply_follow_update st [] = st := by
  have hnil1 : apply_unfollow_update st [] = st := by simp [apply_unfollow_update]
  have hnil2 : apply_follow_update st [] = st := by simp [apply_follow_update]
  by_cases hS : S = []
  · subst hS
    refine ⟨?_, ?_, ?_, ?_, ?_, ?_, ?_, ?_, hnil1, hnil2⟩ <;>
      simp [hnil1, hnil2, dedup_first]
  · refine ⟨?_, ?_, ?_, ?_, ?_, ?_, ?_, ?_, hnil1, hnil2⟩ <;>
      simp only [apply_unfollow_update, apply_follow_update, if_neg hS] <;>
      first
        | rfl
        | exact append_missing_eq S st.following

theorem nodup_append_missing (success : List String) :
    ∀ following : List String, following.Nodup →
      (append_missing following success).Nodup := by
  induction success with
  | nil => intro following hf; simpa [append_missing] using hf
  | cons v rest ih =>
    intro following hf
    by_cases h : following.contains v
    · rw [append_missing, if_pos h]
      exact ih following hf
    · rw [append_missing, if_neg h]
      refine ih (following ++ [v]) ?_
      have hv : v ∉ following := by
        simpa [List.contains, List.elem_eq_mem] using h
      simp [List.nodup_append, hf, hv]

/-- The invariant of C7 over the in-memory menu-loop state. -/
def StateInvariant (st : AppState) : Prop :=
  st.following.Nodup ∧ st.followers.Nodup ∧
  (∀ u ∈ st.not_following_me_back, u ∉ st.followers) ∧
  (∀ u ∈ st.not_followed_by_me, u ∉ st.following)

instance (st : AppState) : Decidable (StateInvariant st) := by
  unfold StateInvariant
  infer_instance

/-- C7: when the fetched lists are duplicate-free, the invariant (following
and followers duplicate-free, `not_following_me_back` disjoint from
followers, `not_followed_by_me` disjoint from following) holds entering the
menu loop and is preserved by the unfollow and follow state updates for any
success list S. -/
theorem menu_loop_invariant (following followers : List String)
    (st : AppState) (S : List String)
    (h1 : following.Nodup) (h2 : followers.Nodup)
    (hst : StateInvariant st) :
    StateInvariant (initial_state following followers) ∧
    StateInvariant (apply_unfollow_update st S) ∧
    StateInvariant (apply_follow_update st S) := by
  obtain ⟨hfl, hfw, hmb, hbm⟩ := hst
  refine ⟨⟨h1, h2, ?_, ?_⟩, ?_, ?_⟩
  · intro u hu
    exact ((mem_reconcile_left following followers u).mp hu).2
  · intro u hu
    exact ((mem_reconcile_right following followers u).mp hu).2
  · by_cases hS : S = []
    · subst hS
      simpa [apply_unfollow_update] using ⟨hfl, hfw, hmb, hbm⟩
    · rw [apply_unfollow_update, if_neg hS]
      refine ⟨hfl.filter _, hfw, ?_, ?_⟩
      · intro u hu
        exact hmb u (List.mem_of_mem_filter hu)
      · intro u hu hmem
        exact hbm u hu (List.mem_of_mem_filter hmem)
  · by_cases hS : S = []
    · subst hS
      simpa [apply_follow_update] using ⟨hfl, hfw, hmb, hbm⟩
    · rw [apply_follow_update, if_neg hS]
      refine ⟨nodup_append_missing S st.following hfl, hfw, ?_, ?_⟩
      · intro u hu
        exact hmb u hu
      · intro u hu hmem
        have hu2 := List.mem_filter.mp hu
        have hnotS : u ∉ S := by
          have := hu2.2
          simpa [List.contains, List.elem_eq_mem] using this
        rcases (mem_append_missing u S st.following).mp hmem with hin | hin
        · exact hbm u hu2.1 hin
        · exact hnotS hin

/-- Witness for `menu_loop_invariant` at concrete duplicate-free lists. -/
theorem menu_loop_invariant_witness :
    StateInvariant (initial_state ["a", "b", "c"] ["b", "c", "d"]) ∧
    StateInvariant
      (apply_unfollow_update (initial_state ["a", "b", "c"] ["b", "c", "d"]) ["a"]) ∧
    StateInvariant
      (apply_follow_update (initial_state ["a", "b", "c"] ["b", "c", "d"]) ["a"]) :=
  menu_loop_invariant ["a", "b", "c"] ["b", "c", "d"]
    (initial_state ["a", "b", "c"] ["b", "c", "d"]) ["a"]
    (by decide) (by decide) (by decide)

/-- The user's decision inside `pick_and_apply` (main.py lines 158-181):
apply to all candidates, pick a sub-list, or cancel. -/
inductive ScopeChoice where
  | all
  | pick (picked : List String)
  | cancel
deriving Repr, DecidableEq

/-- One menu-loop iteration's worth of user input (main.py lines 205-225). -/
inductive UserInput where
  | chooseUnfollow (scope : ScopeChoice)
  | chooseFollow (scope : ScopeChoice)
  | chooseExit
deriving Repr, DecidableEq

/-- Observable events of a menu-loop run: the in-sync report, explicit exit,
running out of scripted input while the loop still prompts, and each
DELETE/PUT mutation request issued. -/
inductive Event where
  | inSync
  | exited
  | outOfInput
  | unfollowReq (user : String)
  | followReq (user : String)
deriving Repr, DecidableEq

/-- The list `pick_and_apply` passes to the batch mutator (main.py lines
166-181): all candidates, the picked sub-list (`if not picked: return []`
makes an empty pick a no-op), or nothing on cancel. -/
def pick_selection (users : List String) : ScopeChoice → List String
  | ScopeChoice.all => users
  | ScopeChoice.pick picked => picked
  | ScopeChoice.cancel => []

/-- The menu loop of `main` (main.py lines 188-225), driven by a script of
user inputs: at the top of each iteration, if both candidate lists are empty
the loop reports in-sync and terminates; otherwise it consumes one input,
runs the chosen batch action on the selected users (emitting one mutation
request per user) and updates the state with the succeeded users. -/
def run_menu (delNet putNet : String → Response) (token : String) :
    List UserInput → AppState → List Event
  | [], st =>
    if st.not_following_me_back = [] ∧ st.not_followed_by_me = [] then [Event.inSync]
    else [Event.outOfInput]
  | input :: script, st =>
    if st.not_following_me_back = [] ∧ st.not_followed_by_me = [] then [Event.inSync]
    else
      match input with
      | UserInput.chooseExit => [Event.exited]
      | UserInput.chooseUnfollow scope =>
        let users := pick_selection st.not_following_me_back scope
        match batch_unfollow delNet token users with
        | Except.error _ => [Event.exited]
        | Except.ok (_, _, succ) =>
          users.map Event.unfollowReq ++
            run_menu delNet putNet token script (apply_unfollow_update st succ)
      | UserInput.chooseFollow scope =>
        let users := pick_selection st.not_followed_by_me scope
        match batch_follow putNet token users with
        | Except.error _ => [Event.exited]
        | Except.ok (_, _, succ) =>
          users.map Event.followReq ++
            run_menu delNet putNet token script (apply_follow_update st succ)

/-- C6: whenever both candidate lists are empty at the top of the menu loop,
the run reports in-sync and terminates at once, and no unfollow or follow
mutation request appears in the trace from that state. -/
theorem in_sync_terminates (delNet putNet : String → Response) (token : String)
    (script : List UserInput) (st : AppState)
    (h1 : st.not_following_me_back = []) (h2 : st.not_followed_by_me = []) :
    run_menu delNet putNet token script st = [Event.inSync] ∧
    (∀ u, Event.unfollowReq u ∉ run_menu delNet putNet token script st) ∧
    (∀ u, Event.followReq u ∉ run_menu delNet putNet token script st) := by
  have hrun : run_menu delNet putNet token script st = [Event.inSync] := by
    cases script <;> simp [run_menu, h1, h2]
  refine ⟨hrun, ?_, ?_⟩ <;> intro u <;> rw [hrun] <;> simp

/-- Witness for `in_sync_terminates`: empty fetched lists, as in the spec's
example Following = [], Followers = []. -/
theorem in_sync_terminates_witness :
    run_menu (fun _ => ⟨204, [], ""⟩) (fun _ => ⟨204, [], ""⟩) "t"
        [UserInput.chooseExit] (initial_state [] []) = [Event.inSync] ∧
    (∀ u, Event.unfollowReq u ∉
        run_menu (fun _ => ⟨204, [], ""⟩) (fun _ => ⟨204, [], ""⟩) "t"
          [UserInput.chooseExit] (initial_state [] [])) ∧
    (∀ u, Event.followReq u ∉
        run_menu (fun _ => ⟨204, [], ""⟩) (fun _ => ⟨204, [], ""⟩) "t"
          [UserInput.chooseExit] (initial_state [] [])) :=
  in_sync_terminates (fun _ => ⟨204, [], ""⟩) (fun _ => ⟨204, [], ""⟩) "t"
    [UserInput.chooseExit] (initial_state [] []) rfl rfl

end FollowSync
